import Mathlib

/-!
Verification of the Antistatic loader: a shallow embedding of the
cross-platform launcher source (escapeArgument, fileExists-guarded
runLauncher, runNodeProcess for the Windows and POSIX builds) together
with models of the tokenization rules of the two target shells, and
theorems about escaping, command assembly, exit-code translation,
logging and error paths.

Strings from the C++ source (std::string) are modelled as List Char;
the String-level wrappers below are used where the launcher concatenates
whole command lines.  Operating-system effects (file existence, log-open
success, fork / CreateProcess outcomes, child wait status) are modelled
as explicit inputs to the launcher functions.
-/

/-- Backslash character. -/
def bsC : Char := Char.ofNat 92

/-- Double-quote character. -/
def dqC : Char := Char.ofNat 34

/-- Single-quote character. -/
def sqC : Char := Char.ofNat 39

/-- Backtick character. -/
def btC : Char := Char.ofNat 96

/-- Vertical-tab character. -/
def vtC : Char := Char.ofNat 11

/-- Opening curly brace character. -/
def obC : Char := Char.ofNat 123

/-- Closing curly brace character. -/
def cbC : Char := Char.ofNat 125

/-- The character set of the Windows branch of escapeArgument:
`arg.find_first_of(" \t\n\v\"")`. -/
def winSpecials : List Char := [' ', '\t', '\n', vtC, dqC]

/-- Whether the Windows branch of escapeArgument quotes the argument
(find_first_of returned a position, i.e. some character of the set occurs). -/
def winNeedsQuotes (arg : List Char) : Bool :=
  arg.any (fun c => winSpecials.contains c)

/-- Body of the quoted form produced by the Windows branch of
escapeArgument: the loop over the argument, carrying the count `n` of
backslashes collected so far.  At end of string the pending run is doubled;
before an embedded quote it is doubled and the quote is backslash-escaped;
before any other character it is emitted as-is. -/
def escWinBody : Nat → List Char → List Char
  | n, [] => List.replicate (2 * n) bsC
  | n, c :: rest =>
    if c = bsC then escWinBody (n + 1) rest
    else if c = dqC then List.replicate (2 * n) bsC ++ bsC :: dqC :: escWinBody 0 rest
    else List.replicate n bsC ++ c :: escWinBody 0 rest

/-- The Windows dialect of escapeArgument. -/
def escapeArgumentWin (arg : List Char) : List Char :=
  if winNeedsQuotes arg then dqC :: (escWinBody 0 arg ++ [dqC]) else arg

/-- The character set of the POSIX branch of escapeArgument
(find_first_of over space, tab, newline, vertical tab, the two quote
characters, backslash, dollar, backtick, and the glob, grouping,
separator and redirection metacharacters). -/
def posixSpecials : List Char :=
  [' ', '\t', '\n', vtC, sqC, dqC, bsC, '$', btC, '!', '*', '?',
   '[', ']', '(', ')', obC, cbC, ';', '<', '>', '|', '&']

/-- Whether the POSIX branch of escapeArgument quotes the argument. -/
def posixNeedsQuotes (arg : List Char) : Bool :=
  arg.any (fun c => posixSpecials.contains c)

/-- Body of the quoted form produced by the POSIX branch of
escapeArgument: every embedded single quote becomes close-quote,
backslash-escaped quote, reopen-quote. -/
def escPosixBody : List Char → List Char
  | [] => []
  | c :: rest =>
    if c = sqC then sqC :: bsC :: sqC :: sqC :: escPosixBody rest
    else c :: escPosixBody rest

/-- The POSIX dialect of escapeArgument. -/
def escapeArgumentPosix (arg : List Char) : List Char :=
  if posixNeedsQuotes arg then sqC :: (escPosixBody arg ++ [sqC]) else arg

/-- Windows command-line tokenization rules (the CreateProcess /
CommandLineToArgvW argument rules) applied to a single token spanning the
whole input: `n` is the pending backslash run, `inQ` whether we are inside
double quotes.  A run of 2k backslashes before a quote yields k backslashes
and the quote toggles quoting; 2k+1 backslashes before a quote yield k
backslashes and a literal quote; backslashes not before a quote are literal.
Returns none if the input is not exactly one complete token (unterminated
quote, or whitespace outside quotes). -/
def winTokenize : Nat → Bool → List Char → Option (List Char)
  | _, true, [] => none
  | n, false, [] => some (List.replicate n bsC)
  | n, inQ, c :: rest =>
    if c = bsC then winTokenize (n + 1) inQ rest
    else if c = dqC then
      if n % 2 = 0 then
        Option.map (fun t => List.replicate (n / 2) bsC ++ t) (winTokenize 0 (!inQ) rest)
      else
        Option.map (fun t => List.replicate (n / 2) bsC ++ dqC :: t) (winTokenize 0 inQ rest)
    else if inQ = false ∧ (c = ' ' ∨ c = '\t') then none
    else Option.map (fun t => List.replicate n bsC ++ c :: t) (winTokenize 0 inQ rest)

/-- Characters that a POSIX shell does not take literally outside quotes
(beyond single quote and backslash, which have their own cases in
`posixTokenize`). -/
def posixHardChars : List Char :=
  [' ', '\t', '\n', vtC, dqC, '$', btC, '!', '*', '?',
   '[', ']', '(', ')', obC, cbC, ';', '<', '>', '|', '&']

/-- POSIX shell single-quote tokenization rules applied to a single token
spanning the whole input: inside single quotes every character is literal
until the closing quote; outside, backslash escapes the next character
(backslash-newline is removed), a single quote opens quoting, and any other
shell-special character or whitespace means the input is not exactly one
literal token (none). -/
def posixTokenize : Bool → List Char → Option (List Char)
  | true, [] => none
  | false, [] => some []
  | true, c :: rest =>
    if c = sqC then posixTokenize false rest
    else Option.map (fun t => c :: t) (posixTokenize true rest)
  | false, c :: rest =>
    if c = sqC then posixTokenize true rest
    else if c = bsC then
      match rest with
      | [] => none
      | d :: r2 =>
        if d = '\n' then posixTokenize false r2
        else Option.map (fun t => d :: t) (posixTokenize false r2)
    else if posixHardChars.contains c then none
    else Option.map (fun t => c :: t) (posixTokenize false rest)

/-- The launcher configuration (struct Config): three fixed strings. -/
structure Config where
  logFile : String
  nodeLocation : String
  gameEntryPoint : String

/-- Config constructed under _WIN32. -/
def winConfig : Config :=
  { logFile := "./debug.txt", nodeLocation := "./node.exe",
    gameEntryPoint := "./app/dist/src/engine.js" }

/-- Config constructed on POSIX platforms. -/
def posixConfig : Config :=
  { logFile := "./debug.txt", nodeLocation := "./node",
    gameEntryPoint := "./app/dist/src/engine.js" }

/-- escapeArgument, Windows dialect, at the std::string level. -/
def escapeArgumentWinStr (s : String) : String :=
  String.mk (escapeArgumentWin s.data)

/-- escapeArgument, POSIX dialect, at the std::string level. -/
def escapeArgumentPosixStr (s : String) : String :=
  String.mk (escapeArgumentPosix s.data)

/-- Command assembly of runLauncher, Windows build:
`escapeArgument(nodeLocation) + " --disallow-code-generation-from-strings "
+ escapeArgument(gameEntryPoint)` followed by `" " + escapeArgument(argv[i])`
for each caller argument in order. -/
def buildCommandWin (args : List String) : String :=
  args.foldl (fun cmd a => cmd ++ " " ++ escapeArgumentWinStr a)
    (escapeArgumentWinStr winConfig.nodeLocation ++
      " --disallow-code-generation-from-strings " ++
      escapeArgumentWinStr winConfig.gameEntryPoint)

/-- Command assembly of runLauncher, POSIX build. -/
def buildCommandPosix (args : List String) : String :=
  args.foldl (fun cmd a => cmd ++ " " ++ escapeArgumentPosixStr a)
    (escapeArgumentPosixStr posixConfig.nodeLocation ++
      " --disallow-code-generation-from-strings " ++
      escapeArgumentPosixStr posixConfig.gameEntryPoint)

/-- WIFEXITED over a raw waitpid status word: low seven bits all zero. -/
def wifexited (status : Nat) : Bool := decide (status % 128 = 0)

/-- WEXITSTATUS over a raw waitpid status word: bits 8..15. -/
def wexitstatus (status : Nat) : Nat := status / 256 % 256

/-- WTERMSIG over a raw waitpid status word: the low seven bits. -/
def wtermsig (status : Nat) : Nat := status % 128

/-- WIFSIGNALED over a raw waitpid status word: the low seven bits are
neither 0 (normal exit) nor 0x7f (stopped). -/
def wifsignaled (status : Nat) : Bool :=
  decide (1 ≤ status % 128 ∧ status % 128 ≤ 126)

/-- Outcome of the fork performed by the POSIX runNodeProcess: either fork
returned a negative pid, or a child was spawned and waitpid reported the
given raw status word. -/
inductive ForkOutcome where
  | failed
  | spawned (pid : Nat) (status : Nat)
deriving DecidableEq

/-- The exit-code translation of the POSIX runNodeProcess:
`WIFEXITED(status) ? WEXITSTATUS(status) :
 WIFSIGNALED(status) ? 128 + WTERMSIG(status) : 1`. -/
def posixStatusCode (status : Nat) : Nat :=
  if wifexited status then wexitstatus status
  else if wifsignaled status then 128 + wtermsig status
  else 1

/-- A log line is emitted only when the log stream opened successfully
(`if (writeLog) log << ...`). -/
def logIf (writeLog : Bool) (line : String) : List String :=
  if writeLog then [line] else []

/-- runNodeProcess, POSIX build: log the command, fork; on fork failure log
and return 1; otherwise log the pid, wait, translate the status and log and
return the resulting code.  Returns the exit code and the log lines
appended by this call. -/
def runNodeProcessPosix (cmd : String) (writeLog : Bool) (fork : ForkOutcome) :
    Nat × List String :=
  match fork with
  | ForkOutcome.failed =>
      (1, logIf writeLog ("Executing: " ++ cmd) ++
          logIf writeLog ("ERROR: fork failed"))
  | ForkOutcome.spawned pid status =>
      (posixStatusCode status,
       logIf writeLog ("Executing: " ++ cmd) ++
        logIf writeLog ("Process started (PID " ++ toString pid ++ ")") ++
        logIf writeLog ("Exit code: " ++ toString (posixStatusCode status)))

/-- Outcome of the CreateProcess call of the Windows runNodeProcess: either
it returned FALSE with a GetLastError code and an optional FormatMessageA
result, or a process was created and GetExitCodeProcess later reported the
given DWORD. -/
inductive CreateProcessOutcome where
  | failed (errorCode : Nat) (message : Option String)
  | created (pid : Nat) (exitCode : Nat)
deriving DecidableEq

/-- static_cast of a DWORD to a 32-bit int. -/
def toInt32 (n : Nat) : Int :=
  if n % 4294967296 < 2147483648 then (n % 4294967296 : Int)
  else (n % 4294967296 : Int) - 4294967296

/-- The whitespace set of `msg.find_last_not_of(" \n\r\t")`. -/
def trailWs : List Char := [' ', '\n', '\r', '\t']

/-- The message clean-up of the Windows runNodeProcess failure path: erase
everything after the last non-whitespace character; when the message is all
whitespace, find_last_not_of returns npos and the message is left as is. -/
def trimFormattedMessage (s : String) : String :=
  let t := (s.data.reverse.dropWhile (fun c => trailWs.contains c)).reverse
  if t.isEmpty then s else String.mk t

/-- runNodeProcess, Windows build: log the command; on CreateProcess
failure log the error code (and, when FormatMessageA produced one, the
trimmed system message) and return 1; otherwise log the pid, wait, log the
DWORD exit code and return it cast to int. -/
def runNodeProcessWin (cmd : String) (writeLog : Bool)
    (cp : CreateProcessOutcome) : Int × List String :=
  match cp with
  | CreateProcessOutcome.failed e msg =>
      (1, logIf writeLog ("Executing: " ++ cmd) ++
          logIf writeLog ("ERROR: Process creation failed (code " ++ toString e ++ ")") ++
          (match msg with
           | none => []
           | some m => logIf writeLog (trimFormattedMessage m)))
  | CreateProcessOutcome.created pid e =>
      (toInt32 e,
       logIf writeLog ("Executing: " ++ cmd) ++
        logIf writeLog ("Process started (PID " ++ toString pid ++ ")") ++
        logIf writeLog ("Exit code: " ++ toString e))

/-- runLauncher, POSIX build.  `logOpens` is whether the ofstream for
config.logFile opened (writeLog), `nodeExists` the result of
fileExists(config.nodeLocation), `fork` the outcome runNodeProcess would
observe.  Returns the exit code, the full log, and whether runNodeProcess
was invoked at all (false means no spawn was even attempted). -/
def runLauncherPosix (args : List String) (logOpens nodeExists : Bool)
    (fork : ForkOutcome) : Nat × List String × Bool :=
  let header := logIf logOpens ("Antistatic Loader") ++
    logIf logOpens ("Args: " ++ toString args.length)
  if nodeExists then
    let r := runNodeProcessPosix (buildCommandPosix args) logOpens fork
    (r.1, header ++ r.2, true)
  else
    (1, header ++
      logIf logOpens ("ERROR: Node.js not found at " ++ posixConfig.nodeLocation),
     false)

/-- runLauncher, Windows build. -/
def runLauncherWin (args : List String) (logOpens nodeExists : Bool)
    (cp : CreateProcessOutcome) : Int × List String × Bool :=
  let header := logIf logOpens ("Antistatic Loader") ++
    logIf logOpens ("Args: " ++ toString args.length)
  if nodeExists then
    let r := runNodeProcessWin (buildCommandWin args) logOpens cp
    (r.1, header ++ r.2, true)
  else
    (1, header ++
      logIf logOpens ("ERROR: Node.js not found at " ++ winConfig.nodeLocation),
     false)

/-- Space-separated join of a token list, used to state command-assembly
order. -/
def joinTokens : List String → String
  | [] => ""
  | t :: ts => ts.foldl (fun acc x => acc ++ " " ++ x) t

/-- The fixed security flag token. -/
def securityFlag : String := "--disallow-code-generation-from-strings"

/-- POSIX shell field splitting of a whole command line (the view of
/bin/sh -c on the assembled command): `cur` is the token accumulated so far
(none when no token has started), the Bool whether we are inside single
quotes.  Double quotes and other shell-special characters are not modelled
and make the split undefined (none); the commands the launcher assembles
never contain them outside single quotes. -/
def shellSplitAux : Option (List Char) → Bool → List Char → Option (List (List Char))
  | _, true, [] => none
  | cur, false, [] =>
      some (match cur with | none => [] | some t => [t])
  | cur, true, c :: rest =>
    if c = sqC then shellSplitAux (some (cur.getD [])) false rest
    else shellSplitAux (some (cur.getD [] ++ [c])) true rest
  | cur, false, c :: rest =>
    if c = ' ' ∨ c = '\t' ∨ c = '\n' then
      match cur with
      | none => shellSplitAux none false rest
      | some t => Option.map (fun ts => t :: ts) (shellSplitAux none false rest)
    else if c = sqC then shellSplitAux (some (cur.getD [])) true rest
    else if c = bsC then
      match rest with
      | [] => none
      | d :: r2 =>
        if d = '\n' then shellSplitAux cur false r2
        else shellSplitAux (some (cur.getD [] ++ [d])) false r2
    else if posixHardChars.contains c then none
    else shellSplitAux (some (cur.getD [] ++ [c])) false rest

/-- POSIX shell field splitting of a whole command line. -/
def shellSplit (s : List Char) : Option (List (List Char)) :=
  shellSplitAux none false s

lemma winTokenize_cons_bs (n : Nat) (inQ : Bool) (rest : List Char) :
    winTokenize n inQ (bsC :: rest) = winTokenize (n + 1) inQ rest := by
  simp [winTokenize]

lemma winTokenize_cons_dq_even (n : Nat) (inQ : Bool) (rest : List Char)
    (h : n % 2 = 0) :
    winTokenize n inQ (dqC :: rest) =
      Option.map (fun t => List.replicate (n / 2) bsC ++ t)
        (winTokenize 0 (!inQ) rest) := by
  have hne : dqC ≠ bsC := by decide
  simp [winTokenize, h, hne]

lemma winTokenize_cons_dq_odd (n : Nat) (inQ : Bool) (rest : List Char)
    (h : n % 2 = 1) :
    winTokenize n inQ (dqC :: rest) =
      Option.map (fun t => List.replicate (n / 2) bsC ++ dqC :: t)
        (winTokenize 0 inQ rest) := by
  have hne : dqC ≠ bsC := by decide
  simp [winTokenize, h, hne]

lemma winTokenize_cons_inq (n : Nat) (c : Char) (rest : List Char)
    (h1 : c ≠ bsC) (h2 : c ≠ dqC) :
    winTokenize n true (c :: rest) =
      Option.map (fun t => List.replicate n bsC ++ c :: t)
        (winTokenize 0 true rest) := by
  simp only [winTokenize]
  rw [if_neg h1, if_neg h2, if_neg (by simp)]

lemma winTokenize_cons_plain (n : Nat) (c : Char) (rest : List Char)
    (h1 : c ≠ bsC) (h2 : c ≠ dqC) (h3 : c ≠ ' ') (h4 : c ≠ '\t') :
    winTokenize n false (c :: rest) =
      Option.map (fun t => List.replicate n bsC ++ c :: t)
        (winTokenize 0 false rest) := by
  simp only [winTokenize]
  rw [if_neg h1, if_neg h2, if_neg (by simp [h3, h4])]

lemma winTokenize_replicate (k : Nat) :
    ∀ (n : Nat) (inQ : Bool) (rest : List Char),
      winTokenize n inQ (List.replicate k bsC ++ rest) =
        winTokenize (n + k) inQ rest := by
  induction k with
  | zero => intro n inQ rest; simp
  | succ m ih =>
      intro n inQ rest
      rw [List.replicate_succ, List.cons_append, winTokenize_cons_bs, ih]
      congr 1
      omega

lemma winTokenize_escWinBody (arg : List Char) :
    ∀ n : Nat, winTokenize 0 true (escWinBody n arg ++ [dqC]) =
      some (List.replicate n bsC ++ arg) := by
  induction arg with
  | nil =>
      intro n
      rw [escWinBody, winTokenize_replicate (2 * n) 0 true [dqC],
        winTokenize_cons_dq_even _ _ _ (by omega)]
      have h2 : (0 + 2 * n) / 2 = n := by omega
      rw [h2]
      simp [winTokenize]
  | cons c rest ih =>
      intro n
      by_cases hb : c = bsC
      · subst hb
        rw [escWinBody, if_pos rfl, ih (n + 1), List.replicate_succ']
        simp
      · by_cases hd : c = dqC
        · subst hd
          rw [escWinBody, if_neg hb, if_pos rfl, List.append_assoc,
            List.cons_append, List.cons_append,
            winTokenize_replicate (2 * n) 0 true _, winTokenize_cons_bs,
            winTokenize_cons_dq_odd _ _ _ (by omega), ih 0]
          have h2 : (0 + 2 * n + 1) / 2 = n := by omega
          rw [h2]
          simp
        · rw [escWinBody, if_neg hb, if_neg hd, List.append_assoc,
            List.cons_append, winTokenize_replicate n 0 true _,
            winTokenize_cons_inq _ _ _ hb hd, ih 0]
          simp

lemma winTokenize_plain (arg : List Char) (h : winNeedsQuotes arg = false) :
    ∀ n : Nat, winTokenize n false arg = some (List.replicate n bsC ++ arg) := by
  induction arg with
  | nil => intro n; simp [winTokenize]
  | cons c rest ih =>
      have hc : winSpecials.contains c = false := by
        by_contra hmem
        simp [winNeedsQuotes, List.any_cons] at h
        exact absurd (h.1) (by simpa using hmem)
      have hrest : winNeedsQuotes rest = false := by
        simp [winNeedsQuotes, List.any_cons] at h ⊢
        exact h.2
      intro n
      by_cases hb : c = bsC
      · subst hb
        rw [winTokenize_cons_bs, ih hrest (n + 1), List.replicate_succ']
        simp
      · have hd : c ≠ dqC := by
          intro hceq; subst hceq; simp [winSpecials] at hc
        have hsp : c ≠ ' ' := by
          intro hceq; subst hceq; simp [winSpecials] at hc
        have hst : c ≠ '\t' := by
          intro hceq; subst hceq; simp [winSpecials] at hc
        rw [winTokenize_cons_plain _ _ _ hb hd hsp hst, ih hrest 0]
        simp

lemma win_round_trip (arg : List Char) :
    winTokenize 0 false (escapeArgumentWin arg) = some arg := by
  by_cases h : winNeedsQuotes arg = true
  · rw [escapeArgumentWin, if_pos h,
      winTokenize_cons_dq_even 0 false _ (by omega)]
    simp only [Bool.not_false]
    rw [winTokenize_escWinBody arg 0]
    simp
  · rw [escapeArgumentWin, if_neg h,
      winTokenize_plain arg (by simpa using h) 0]
    simp

lemma posixTokenize_inq_sq (rest : List Char) :
    posixTokenize true (sqC :: rest) = posixTokenize false rest := rfl

lemma posixTokenize_inq_other (c : Char) (rest : List Char) (h : c ≠ sqC) :
    posixTokenize true (c :: rest) =
      Option.map (fun t => c :: t) (posixTokenize true rest) := by
  simp only [posixTokenize]
  rw [if_neg h]

lemma posixTokenize_out_sq (rest : List Char) :
    posixTokenize false (sqC :: rest) = posixTokenize true rest := by
  cases rest with
  | nil => rw [posixTokenize.eq_4, if_pos rfl]
  | cons d r2 => rw [posixTokenize.eq_5, if_pos rfl]

lemma posixTokenize_out_bs (d : Char) (r2 : List Char) (h : d ≠ '\n') :
    posixTokenize false (bsC :: d :: r2) =
      Option.map (fun t => d :: t) (posixTokenize false r2) := by
  have hne : bsC ≠ sqC := by decide
  rw [posixTokenize.eq_5, if_neg hne, if_pos rfl, if_neg h]

lemma posixTokenize_out_plain (c : Char) (rest : List Char)
    (h1 : c ≠ sqC) (h2 : c ≠ bsC) (h3 : posixHardChars.contains c = false) :
    posixTokenize false (c :: rest) =
      Option.map (fun t => c :: t) (posixTokenize false rest) := by
  cases rest with
  | nil => rw [posixTokenize.eq_4, if_neg h1, if_neg h2, if_neg (by simpa using h3)]
  | cons d r2 =>
      rw [posixTokenize.eq_5, if_neg h1, if_neg h2, if_neg (by simpa using h3)]

lemma posixTokenize_escPosixBody (arg : List Char) :
    posixTokenize true (escPosixBody arg ++ [sqC]) = some arg := by
  induction arg with
  | nil => simp [escPosixBody, posixTokenize]
  | cons c rest ih =>
      by_cases hs : c = sqC
      · subst hs
        rw [escPosixBody, if_pos rfl, List.cons_append, List.cons_append,
          List.cons_append, List.cons_append, posixTokenize_inq_sq,
          posixTokenize_out_bs _ _ (by decide), posixTokenize_out_sq, ih]
        simp
      · rw [escPosixBody, if_neg hs, List.cons_append,
          posixTokenize_inq_other _ _ hs, ih]
        simp

lemma posixTokenize_plain (arg : List Char) (h : posixNeedsQuotes arg = false) :
    posixTokenize false arg = some arg := by
  induction arg with
  | nil => simp [posixTokenize]
  | cons c rest ih =>
      have hc : posixSpecials.contains c = false := by
        by_contra hmem
        simp [posixNeedsQuotes, List.any_cons] at h
        exact absurd h.1 (by simpa using hmem)
      have hrest : posixNeedsQuotes rest = false := by
        simp [posixNeedsQuotes, List.any_cons] at h ⊢
        exact h.2
      have hs : c ≠ sqC := by
        intro he; subst he; simp [posixSpecials] at hc
      have hb : c ≠ bsC := by
        intro he; subst he; simp [posixSpecials] at hc
      have hh : posixHardChars.contains c = false := by
        simp only [posixSpecials, List.contains_cons] at hc
        simp only [posixHardChars, List.contains_cons]
        simp at hc ⊢
        tauto
      rw [posixTokenize_out_plain _ _ hs hb hh, ih hrest]
      simp

lemma posix_round_trip (arg : List Char) :
    posixTokenize false (escapeArgumentPosix arg) = some arg := by
  by_cases h : posixNeedsQuotes arg = true
  · rw [escapeArgumentPosix, if_pos h, posixTokenize_out_sq,
      posixTokenize_escPosixBody]
  · rw [escapeArgumentPosix, if_neg h,
      posixTokenize_plain arg (by simpa using h)]

lemma buildCommandPosix_append (args : List String) (a : String) :
    buildCommandPosix (args ++ [a]) =
      buildCommandPosix args ++ " " ++ escapeArgumentPosixStr a := by
  simp [buildCommandPosix, List.foldl_append]

lemma buildCommandWin_append (args : List String) (a : String) :
    buildCommandWin (args ++ [a]) =
      buildCommandWin args ++ " " ++ escapeArgumentWinStr a := by
  simp [buildCommandWin, List.foldl_append]

lemma strAppendEmpty (s : String) : s ++ "" = s := by
  apply String.ext
  simp [String.data_append]

lemma buildCommandPosix_joinTokens (args : List String) :
    buildCommandPosix args =
      joinTokens ([posixConfig.nodeLocation, securityFlag,
        posixConfig.gameEntryPoint] ++ args.map escapeArgumentPosixStr) := by
  simp only [List.cons_append, List.nil_append, joinTokens, List.foldl_cons,
    List.foldl_map]
  rw [buildCommandPosix]
  congr 1

lemma buildCommandWin_joinTokens (args : List String) :
    buildCommandWin args =
      joinTokens ([winConfig.nodeLocation, securityFlag,
        winConfig.gameEntryPoint] ++ args.map escapeArgumentWinStr) := by
  simp only [List.cons_append, List.nil_append, joinTokens, List.foldl_cons,
    List.foldl_map]
  rw [buildCommandWin]
  congr 1

/-- Claim C1: for every argument string, escaping with escapeArgument and
then parsing the escaped token with the tokenization rules of the target shell
(Windows double-quote and backslash rules, or POSIX single-quote rules)
yields back exactly the original string; in particular this holds for
every argument containing spaces, quotes, or shell metacharacters. -/
theorem escaping_round_trip (arg : List Char) :
    winTokenize 0 false (escapeArgumentWin arg) = some arg ∧
    posixTokenize false (escapeArgumentPosix arg) = some arg :=
  ⟨win_round_trip arg, posix_round_trip arg⟩

/-- Claim C2: with no interpreter executable at the configured path, the
launcher returns exit code 1, does not invoke runNodeProcess (so no child
process is spawned), and, when the log opened, writes a log line naming
the missing path — on both the POSIX and the Windows build. -/
theorem missing_interpreter_exit (args : List String) (lo : Bool)
    (fork : ForkOutcome) (cp : CreateProcessOutcome) :
    (runLauncherPosix args lo false fork).1 = 1 ∧
    (runLauncherPosix args lo false fork).2.2 = false ∧
    (lo = true →
      ("ERROR: Node.js not found at ./node") ∈ (runLauncherPosix args lo false fork).2.1) ∧
    (runLauncherWin args lo false cp).1 = 1 ∧
    (runLauncherWin args lo false cp).2.2 = false ∧
    (lo = true →
      ("ERROR: Node.js not found at ./node.exe") ∈ (runLauncherWin args lo false cp).2.1) := by
  cases lo <;>
    simp [runLauncherPosix, runLauncherWin, logIf, posixConfig, winConfig]

theorem missing_interpreter_exit_witness :
    (runLauncherPosix ["x"] true false ForkOutcome.failed).1 = 1 ∧
    (runLauncherPosix ["x"] true false ForkOutcome.failed).2.2 = false ∧
    ("ERROR: Node.js not found at ./node") ∈
      (runLauncherPosix ["x"] true false ForkOutcome.failed).2.1 :=
  ⟨(missing_interpreter_exit ["x"] true ForkOutcome.failed
      (CreateProcessOutcome.failed 0 none)).1,
   (missing_interpreter_exit ["x"] true ForkOutcome.failed
      (CreateProcessOutcome.failed 0 none)).2.1,
   (missing_interpreter_exit ["x"] true ForkOutcome.failed
      (CreateProcessOutcome.failed 0 none)).2.2.1 rfl⟩

/-- Claim C3: on the POSIX build, when the child was terminated by signal
S (the waitpid status satisfies WIFSIGNALED and WTERMSIG gives S), the
exit code of the launcher is 128 + S. -/
theorem signal_translation (args : List String) (lo : Bool)
    (pid status sig : Nat) (hsig : wifsignaled status = true)
    (hts : wtermsig status = sig) :
    (runLauncherPosix args lo true (ForkOutcome.spawned pid status)).1 =
      128 + sig := by
  have h1 : status % 128 ≠ 0 := by
    simp [wifsignaled] at hsig
    omega
  have hex : wifexited status = false := by
    simp [wifexited, h1]
  simp [runLauncherPosix, runNodeProcessPosix, posixStatusCode, hex, hsig]
  rw [← hts]

theorem signal_translation_witness :
    wifsignaled 9 = true ∧ wtermsig 9 = 9 ∧
    (runLauncherPosix [] false true (ForkOutcome.spawned 1 9)).1 = 128 + 9 :=
  ⟨by decide, by decide,
   signal_translation [] false 1 9 9 (by decide) (by decide)⟩

/-- Claim C4: when the child terminates normally with exit code N for
0 ≤ N ≤ 255 (waitpid status N·256 on POSIX, GetExitCodeProcess DWORD N on
Windows), the exit code of the launcher itself equals N. -/
theorem exit_code_propagation (args : List String) (lo : Bool)
    (pid n : Nat) (h : n ≤ 255) :
    (runLauncherPosix args lo true (ForkOutcome.spawned pid (n * 256))).1 = n ∧
    (runLauncherWin args lo true (CreateProcessOutcome.created pid n)).1 = (n : Int) := by
  constructor
  · have hex : wifexited (n * 256) = true := by
      simp [wifexited]
      omega
    simp [runLauncherPosix, runNodeProcessPosix, posixStatusCode, hex,
      wexitstatus]
    omega
  · simp [runLauncherWin, runNodeProcessWin, toInt32]
    rw [if_pos (by omega)]
    omega

theorem exit_code_propagation_witness :
    (runLauncherPosix [] false true (ForkOutcome.spawned 7 (42 * 256))).1 = 42 ∧
    (runLauncherWin [] false true (CreateProcessOutcome.created 7 42)).1 = (42 : Int) :=
  exit_code_propagation [] false 7 42 (by decide)

/-- Claim C5: every caller-supplied argument enters the assembled command
string exactly as its escapeArgument image, appended after a single space;
no caller argument reaches the command line unescaped. -/
theorem caller_arguments_escaped (args : List String) (a : String) :
    buildCommandPosix (args ++ [a]) =
      buildCommandPosix args ++ " " ++ escapeArgumentPosixStr a ∧
    buildCommandWin (args ++ [a]) =
      buildCommandWin args ++ " " ++ escapeArgumentWinStr a :=
  ⟨buildCommandPosix_append args a, buildCommandWin_append args a⟩

/-- Claim C6: an argument containing none of the characters requiring
escaping for the target dialect is returned unchanged by escapeArgument. -/
theorem pass_through_identity (arg : List Char) :
    (winNeedsQuotes arg = false → escapeArgumentWin arg = arg) ∧
    (posixNeedsQuotes arg = false → escapeArgumentPosix arg = arg) := by
  constructor
  · intro h
    rw [escapeArgumentWin, if_neg (by simp [h])]
  · intro h
    rw [escapeArgumentPosix, if_neg (by simp [h])]

theorem pass_through_identity_witness :
    escapeArgumentWin ("abc").data = ("abc").data ∧
    escapeArgumentPosix ("abc").data = ("abc").data :=
  ⟨(pass_through_identity ("abc").data).1 (by decide),
   (pass_through_identity ("abc").data).2 (by decide)⟩

/-- Claim C7: the assembled command string is, in fixed order and separated
by single spaces, the interpreter path, the fixed security flag, the
entry-point script path, then each escaped caller argument in order; in
particular for arguments ["--seed", "42", "a value with spaces"] the three
arguments appear in that order with the third one quoted. -/
theorem command_assembly_order (args : List String) :
    buildCommandPosix args =
      joinTokens ([posixConfig.nodeLocation, securityFlag,
        posixConfig.gameEntryPoint] ++ args.map escapeArgumentPosixStr) ∧
    buildCommandWin args =
      joinTokens ([winConfig.nodeLocation, securityFlag,
        winConfig.gameEntryPoint] ++ args.map escapeArgumentWinStr) ∧
    buildCommandPosix ["--seed", "42", "a value with spaces"] =
      "./node --disallow-code-generation-from-strings ./app/dist/src/engine.js --seed 42 'a value with spaces'" ∧
    buildCommandWin ["--seed", "42", "a value with spaces"] =
      "./node.exe --disallow-code-generation-from-strings ./app/dist/src/engine.js --seed 42 \"a value with spaces\"" :=
  ⟨buildCommandPosix_joinTokens args, buildCommandWin_joinTokens args,
   by decide, by decide⟩

/-- Claim C8 counterexample: when fork fails (with the log open), the
launcher logs only the fixed line "ERROR: fork failed" — the log contains
no digit at all, so no platform error code is logged, contradicting the
claim that a process-creation failure always logs the platform error
code. -/
theorem spawn_failure_no_error_code_logged :
    (runNodeProcessPosix ("c") true ForkOutcome.failed).1 = 1 ∧
    (runNodeProcessPosix ("c") true ForkOutcome.failed).2 =
      ["Executing: c", "ERROR: fork failed"] ∧
    ((runNodeProcessPosix ("c") true ForkOutcome.failed).2.all
      (fun l => l.data.all (fun ch => !ch.isDigit))) = true := by
  refine ⟨by decide, by decide, by decide⟩

/-- Claim C8 (amended): when CreateProcess fails, the Windows launcher
logs the platform error code and, when FormatMessageA produced one, the
trimmed human-readable system message, and returns 1 without retrying;
when fork fails, the POSIX launcher logs a fixed failure line (without an
error code) and returns 1 without retrying. -/
theorem spawn_failure_behavior (cmd : String) (e : Nat) (m : String) :
    runNodeProcessWin cmd true (CreateProcessOutcome.failed e (some m)) =
      (1, ["Executing: " ++ cmd,
           "ERROR: Process creation failed (code " ++ toString e ++ ")",
           trimFormattedMessage m]) ∧
    runNodeProcessWin cmd true (CreateProcessOutcome.failed e none) =
      (1, ["Executing: " ++ cmd,
           "ERROR: Process creation failed (code " ++ toString e ++ ")"]) ∧
    runNodeProcessPosix cmd true ForkOutcome.failed =
      (1, ["Executing: " ++ cmd, "ERROR: fork failed"]) := by
  refine ⟨?_, ?_, ?_⟩ <;>
    simp [runNodeProcessWin, runNodeProcessPosix, logIf]

/-- Claim C9: the exit code of the launcher (and whether a spawn is attempted)
is the same whether or not the log file could be opened: a log-open
failure silently disables logging without changing the result. -/
theorem log_open_failure_no_effect (args : List String) (ne : Bool)
    (fork : ForkOutcome) (cp : CreateProcessOutcome) :
    ((runLauncherPosix args true ne fork).1 =
       (runLauncherPosix args false ne fork).1 ∧
     (runLauncherPosix args true ne fork).2.2 =
       (runLauncherPosix args false ne fork).2.2) ∧
    ((runLauncherWin args true ne cp).1 =
       (runLauncherWin args false ne cp).1 ∧
     (runLauncherWin args true ne cp).2.2 =
       (runLauncherWin args false ne cp).2.2) := by
  cases ne <;> cases fork <;> cases cp <;>
    simp [runLauncherPosix, runLauncherWin, runNodeProcessPosix,
      runNodeProcessWin, logIf]

/-- Claim C10: escapeArgument maps the empty string to the empty string in
both dialects, so an empty caller argument adds exactly one separating
space to the assembled command line, and the POSIX shell field splitting
of the resulting command produces the same argument list as without it. -/
theorem empty_argument_collapses :
    escapeArgumentWin [] = [] ∧ escapeArgumentPosix [] = [] ∧
    (∀ args : List String,
      buildCommandPosix (args ++ [""]) = buildCommandPosix args ++ " ") ∧
    (∀ args : List String,
      buildCommandWin (args ++ [""]) = buildCommandWin args ++ " ") ∧
    shellSplit (buildCommandPosix [""]).data =
      shellSplit (buildCommandPosix []).data := by
  refine ⟨by decide, by decide, ?_, ?_, by decide⟩
  · intro args
    rw [buildCommandPosix_append]
    have h1 : escapeArgumentPosixStr "" = "" := by decide
    rw [h1, strAppendEmpty]
  · intro args
    rw [buildCommandWin_append]
    have h1 : escapeArgumentWinStr "" = "" := by decide
    rw [h1, strAppendEmpty]
